import Mathlib

/-!
Verification of the break-timer widget: the timezone-aware deadline resolver
(shortcutEndOfDay with its zonedTimeToUtc / getOffsetMs helpers) and the timer
state machines of the three App.vue variants.

The JavaScript runtime primitives used by the source (Date.UTC,
Intl.DateTimeFormat formatToParts for America/New_York, Number coercion,
Math.floor) are modelled explicitly below; each such definition is marked as a
platform model in its doc comment.  All repository functions are translated
directly from the source.
-/

set_option maxHeartbeats 1000000

/-- Platform model (ECMAScript): leap-year predicate of the proleptic Gregorian
calendar used by Date.UTC and Intl. -/
def isLeap (y : Int) : Bool :=
  y % 4 == 0 && (y % 100 != 0 || y % 400 == 0)

/-- Platform model: number of days in year y. -/
def yearLength (y : Int) : Int := if isLeap y then 366 else 365

/-- Platform model: length in days of the 0-based month i (0 = January) for the
given leap flag. -/
def monthLen (leap : Bool) : Nat → Int
  | 0 => 31
  | 1 => if leap then 29 else 28
  | 2 => 31
  | 3 => 30
  | 4 => 31
  | 5 => 30
  | 6 => 31
  | 7 => 31
  | 8 => 30
  | 9 => 31
  | 10 => 30
  | 11 => 31
  | _ => 0

/-- Sum f 0 + f 1 + ... + f (n - 1). -/
def cum (f : Nat → Int) : Nat → Int
  | 0 => 0
  | n + 1 => cum f n + f n

/-- Platform model: days from 1970-01-01 to the start of year y in the
proleptic Gregorian calendar. -/
def dty (y : Int) : Int :=
  365 * y + (y - 1) / 4 - (y - 1) / 100 + (y - 1) / 400 - 719527

/-- Platform model: day count since 1970-01-01 of the date given by year y,
0-based month m0 and day-of-month d; an out-of-range month or day is carried
over exactly as Date.UTC normalizes it. -/
def daysFromCivil (y m0 d : Int) : Int :=
  dty (y + m0 / 12) +
    cum (monthLen (isLeap (y + m0 / 12))) (m0 % 12).toNat + (d - 1)

/-- Platform model of Date.UTC: epoch milliseconds of the given UTC calendar
fields (year, 0-based month, day, hour, minute, second). -/
def dateUTC (y m0 d h mi s : Int) : Int :=
  daysFromCivil y m0 d * 86400000 + h * 3600000 + mi * 60000 + s * 1000

/-- Year lengths of the 400-year Gregorian cycle that starts at year 2000. -/
def yearLengthsFrom2000 (i : Nat) : Int := yearLength (2000 + (i : Int))

/-- Linear scan: starting at index i with remainder r, advance while the
remainder is at least the current width; fuel bounds the number of steps. -/
def scanPickF (f : Nat → Int) : Nat → Nat → Int → Nat × Int
  | 0, i, r => (i, r)
  | fuel + 1, i, r => if r < f i then (i, r) else scanPickF f fuel (i + 1) (r - f i)

/-- Platform model: inverse calendar conversion from a day count since
1970-01-01 to (year, month 1-12, day 1-31). -/
def civilFromDays (z : Int) : Int × Int × Int :=
  let w := z - 10957
  let era := w / 146097
  let doe := w % 146097
  let p := scanPickF yearLengthsFrom2000 400 0 doe
  let y := 2000 + 400 * era + (p.1 : Int)
  let q := scanPickF (monthLen (isLeap y)) 12 0 p.2
  (y, (q.1 : Int) + 1, q.2 + 1)

/-- Calendar fields of an instant as produced by the formatToParts platform
model; milliseconds are not represented, matching Intl output. -/
structure DateParts where
  year : Int
  month : Int
  day : Int
  hour : Int
  minute : Int
  second : Int

/-- Platform model: UTC calendar fields of an epoch-millisecond instant. -/
def epochToParts (ms : Int) : DateParts :=
  let days := ms / 86400000
  let tod := ms % 86400000
  let c := civilFromDays days
  { year := c.1
    month := c.2.1
    day := c.2.2
    hour := tod / 3600000
    minute := (tod % 3600000) / 60000
    second := (tod % 60000) / 1000 }

/-- Platform model: day of the week (0 = Sunday) of a day count since
1970-01-01, which was a Thursday. -/
def dayOfWeek (z : Int) : Int := (z + 4) % 7

/-- Platform model (IANA tzdata, America/New_York, rules in force since 2007):
the day of March on which DST starts, i.e. the second Sunday. -/
def secondSundayMarch (y : Int) : Int := 14 - dayOfWeek (daysFromCivil y 2 14)

/-- Platform model: the day of November on which DST ends (first Sunday). -/
def firstSundayNovember (y : Int) : Int := 7 - dayOfWeek (daysFromCivil y 10 7)

/-- Platform model: instant at which America/New_York enters DST in year y
(02:00 EST = 07:00 UTC). -/
def dstStartUtc (y : Int) : Int := dateUTC y 2 (secondSundayMarch y) 7 0 0

/-- Platform model: instant at which America/New_York leaves DST in year y
(02:00 EDT = 06:00 UTC). -/
def dstEndUtc (y : Int) : Int := dateUTC y 10 (firstSundayNovember y) 6 0 0

/-- UTC calendar year of an instant. -/
def utcYearOf (ts : Int) : Int := (civilFromDays (ts / 86400000)).1

/-- Platform model: UTC offset of America/New_York in milliseconds at the given
instant: -4 h during DST and -5 h otherwise, under the United States DST rule
in force since 2007. -/
def nyOffsetMs (ts : Int) : Int :=
  if dstStartUtc (utcYearOf ts) ≤ ts ∧ ts < dstEndUtc (utcYearOf ts) then -14400000
  else -18000000

/-- Platform model of Intl.DateTimeFormat with timeZone America/New_York:
formatToParts of an instant yields the zone-local calendar fields. -/
def nyParts (ts : Int) : DateParts := epochToParts (ts + nyOffsetMs ts)

/-- getOffsetMs from shortcutEndOfDay: format the instant in America/New_York,
reassemble the parts with Date.UTC, and subtract the instant. -/
def getOffsetMs (ts : Int) : Int :=
  dateUTC (nyParts ts).year ((nyParts ts).month - 1) (nyParts ts).day
    (nyParts ts).hour (nyParts ts).minute (nyParts ts).second - ts

/-- zonedTimeToUtc from shortcutEndOfDay: two-pass offset correction from a
wall-clock time in America/New_York to a UTC instant. -/
def zonedTimeToUtc (y mo d h mi : Int) : Int :=
  let initial := dateUTC y (mo - 1) d h mi 0
  let off1 := getOffsetMs initial
  let guess := initial - off1
  let off2 := getOffsetMs guess
  initial - off2

/-- Instant computed by shortcutEndOfDay: the next 17:00 America/New_York,
moving to tomorrow when today's 17:00 ET is not strictly after now. -/
def shortcutEndOfDayTarget (now : Int) : Int :=
  let p := nyParts now
  let target1 := zonedTimeToUtc p.year p.month p.day 17 0
  if target1 ≤ now then
    let todayInEt := zonedTimeToUtc p.year p.month p.day 12 0
    let tomorrowEt := todayInEt + 86400000
    let pt := nyParts tomorrowEt
    zonedTimeToUtc pt.year pt.month pt.day 17 0
  else target1

/-- Platform model of an ECMAScript number as produced by Number(): NaN, an
infinity, or a finite value, represented exactly (the double rounding of the
runtime is irrelevant at the magnitudes exercised here). -/
inductive JSNum where
  | nan : JSNum
  | inf (neg : Bool) : JSNum
  | num (q : Rat) : JSNum
  deriving DecidableEq

/-- Platform model of Number.isFinite. -/
def isFiniteNum : JSNum → Bool
  | .num _ => true
  | _ => false

/-- Value of a most-significant-first digit list; none when a non-digit
appears. -/
def digitsVal : List Char → Nat → Option Nat
  | [], acc => some acc
  | c :: cs, acc =>
    if c.isDigit then digitsVal cs (acc * 10 + (c.toNat - 48)) else none

/-- Unsigned decimal literal: digits with at most one decimal point and at
least one digit overall. -/
def parseDec (cs : List Char) : Option Rat :=
  match cs.dropWhile (fun c => c != '.') with
  | [] =>
    if cs.isEmpty then none
    else (digitsVal cs 0).map (fun n => (n : Rat))
  | _ :: frac =>
    if (cs.takeWhile (fun c => c != '.')).isEmpty && frac.isEmpty then none
    else
      match digitsVal (cs.takeWhile (fun c => c != '.')) 0, digitsVal frac 0 with
      | some a, some b => some ((a : Rat) + (b : Rat) / ((10 ^ frac.length : Nat) : Rat))
      | _, _ => none

/-- Platform model of ECMAScript ToNumber restricted to the plain decimal
literals exercised by the custom-minutes input: an optional sign followed by
digits with an optional single decimal point; the empty string converts to 0;
everything else in the modelled fragment (such as letters or a lone sign or
dot) is NaN. -/
def jsNumber (s : String) : JSNum :=
  match s.toList with
  | [] => .num 0
  | '-' :: rest => match parseDec rest with
    | some q => .num (-q)
    | none => .nan
  | '+' :: rest => match parseDec rest with
    | some q => .num q
    | none => .nan
  | cs => match parseDec cs with
    | some q => .num q
    | none => .nan

/-- parsedCustomMinutes (textually identical in all three variants):
Number(customMinutes), rejecting non-finite or non-positive values, then
Math.floor. -/
def parsedCustomMinutes (s : String) : Option Int :=
  match jsNumber s with
  | .num q => if q ≤ 0 then none else some q.floor
  | _ => none

/-- JavaScript truthiness of a number-or-null value: null and 0 are falsy,
every other number is truthy. -/
def truthy : Option Int → Bool
  | none => false
  | some n => n != 0

/-- customExpiresAt (textually identical in all three variants): preview of
now plus the parsed custom minutes, null when the parsed value is not truthy. -/
def customExpiresAt (now : Int) (cm : String) : Option Int :=
  match parsedCustomMinutes cm with
  | some n => if n = 0 then none else some (now + n * 60000)
  | none => none

/-- pendingExpiresAt of the precise-end variant: the pending exact end when
set, otherwise now plus the pending minutes when one is pending. -/
def pendingExpiresAt (now : Int) (pm pe : Option Int) : Option Int :=
  match pe with
  | some e => some e
  | none =>
    match pm with
    | some m => some (now + m * 60000)
    | none => none

namespace AutoStop

/-- State of the App.vue variant that clamps remaining time and auto-stops,
together with the scheduler bookkeeping: intervals holds the identifiers of
the currently active setInterval callbacks and nextId the next fresh
identifier. -/
structure St where
  customMinutes : String
  hovered : Option Int
  running : Bool
  startTime : Option Int
  endTime : Option Int
  remainingMs : Int
  tickHandle : Option Nat
  intervals : List Nat
  nextId : Nat

/-- Initial state on mount. -/
def init : St :=
  { customMinutes := ""
    hovered := none
    running := false
    startTime := none
    endTime := none
    remainingMs := 0
    tickHandle := none
    intervals := []
    nextId := 0 }

/-- clearTimer: clearInterval on the stored handle, if any, then null it. -/
def clearTimer (s : St) : St :=
  match s.tickHandle with
  | some h => { s with tickHandle := none, intervals := s.intervals.erase h }
  | none => s

/-- cancel: stop the ticker and reset the run state. -/
def cancel (s : St) : St :=
  { clearTimer s with
    running := false
    startTime := none
    endTime := none
    remainingMs := 0 }

/-- One execution of the update closure created by start: recompute the
remaining time clamped at zero and stop the timer once the deadline has
passed; endMs is the end instant captured by the closure and now the clock
reading of this execution. -/
def update (s : St) (endMs now : Int) : St :=
  let diff := endMs - now
  if diff ≤ 0 then
    { clearTimer { s with remainingMs := max 0 diff } with running := false }
  else { s with remainingMs := max 0 diff }

/-- window.setInterval: register a fresh periodic callback and store its
identifier. -/
def setTick (s : St) : St :=
  { s with
    tickHandle := some s.nextId
    intervals := s.nextId :: s.intervals
    nextId := s.nextId + 1 }

/-- start(minutes) at clock reading now: reset any existing timer, set the run
fields, run update once, then schedule the periodic callback. -/
def start (s : St) (now minutes : Int) : St :=
  setTick (update
    { clearTimer s with
      startTime := some now
      endTime := some (now + minutes * 60000)
      running := true }
    (now + minutes * 60000) now)

/-- startCustom: start with the parsed custom minutes when truthy, then clear
the input. -/
def startCustom (s : St) (now : Int) : St :=
  match parsedCustomMinutes s.customMinutes with
  | some n => if n = 0 then s else { start s now n with customMinutes := "" }
  | none => s

/-- A firing of the periodic callback: runs the update closure; it can only
fire while a callback is scheduled, and the captured end instant is the
stored endTime. -/
def tick (s : St) (now : Int) : St :=
  match s.tickHandle, s.endTime with
  | some _, some endMs => update s endMs now
  | _, _ => s

/-- User edit of the custom-minutes input (v-model). -/
def setCustom (s : St) (v : String) : St := { s with customMinutes := v }

/-- Hover change on a preset button. -/
def setHovered (s : St) (v : Option Int) : St := { s with hovered := v }

/-- One user or timer event of this variant. -/
inductive Op where
  | start (now minutes : Int)
  | startCustom (now : Int)
  | cancel
  | tick (now : Int)
  | setCustom (v : String)
  | setHovered (v : Option Int)

/-- Event application. -/
def apply (s : St) : Op → St
  | .start now minutes => start s now minutes
  | .startCustom now => startCustom s now
  | .cancel => cancel s
  | .tick now => tick s now
  | .setCustom v => setCustom s v
  | .setHovered v => setHovered s v

/-- Run a sequence of events from a state. -/
def run (s : St) (l : List Op) : St := l.foldl apply s

/-- Scheduler invariant: the set of active periodic callbacks is exactly the
stored handle. -/
def handleInv (s : St) : Prop :=
  s.intervals = (match s.tickHandle with | some h => [h] | none => [])

end AutoStop

namespace Overdue

/-- State of the part_000 precise-end variant, which never clamps the
remaining time and shows an overdue banner instead of stopping; preciseEnd
holds the parsed value of the preciseEndLocal input (none when empty or
unparseable), and intervals / nextId are the scheduler bookkeeping. -/
structure St where
  pendingMinutes : Option Int
  pendingExactEnd : Option Int
  customMinutes : String
  preciseEnd : Option Int
  running : Bool
  startTime : Option Int
  endTime : Option Int
  remainingMs : Int
  tickHandle : Option Nat
  intervals : List Nat
  nextId : Nat

/-- Initial state on mount. -/
def init : St :=
  { pendingMinutes := none
    pendingExactEnd := none
    customMinutes := ""
    preciseEnd := none
    running := false
    startTime := none
    endTime := none
    remainingMs := 0
    tickHandle := none
    intervals := []
    nextId := 0 }

/-- clearTimer: clearInterval on the stored handle, if any, then null it. -/
def clearTimer (s : St) : St :=
  match s.tickHandle with
  | some h => { s with tickHandle := none, intervals := s.intervals.erase h }
  | none => s

/-- cancel: stop the ticker and reset the run state (the pending fields are
not touched). -/
def cancel (s : St) : St :=
  { clearTimer s with
    running := false
    startTime := none
    endTime := none
    remainingMs := 0 }

/-- One execution of the update closure of this variant: recompute the
remaining time with no clamping and no auto-stop. -/
def update (s : St) (endMs now : Int) : St :=
  { s with remainingMs := endMs - now }

/-- window.setInterval: register a fresh periodic callback and store its
identifier. -/
def setTick (s : St) : St :=
  { s with
    tickHandle := some s.nextId
    intervals := s.nextId :: s.intervals
    nextId := s.nextId + 1 }

/-- start(minutes) at clock reading now. -/
def start (s : St) (now minutes : Int) : St :=
  setTick (update
    { clearTimer s with
      startTime := some now
      endTime := some (now + minutes * 60000)
      running := true }
    (now + minutes * 60000) now)

/-- startUntil(end) at clock reading now. -/
def startUntil (s : St) (now endMs : Int) : St :=
  setTick (update
    { clearTimer s with
      startTime := some now
      endTime := some endMs
      running := true }
    endMs now)

/-- startCustom of this variant: only stages the parsed custom minutes as the
pending selection (clearing any pending exact end); no timer starts. -/
def startCustom (s : St) : St :=
  match parsedCustomMinutes s.customMinutes with
  | some n =>
    if n = 0 then s
    else { s with pendingExactEnd := none, pendingMinutes := some n }
  | none => s

/-- choosePreset(m): stage a preset as the pending selection. -/
def choosePreset (s : St) (m : Int) : St :=
  { s with pendingExactEnd := none, pendingMinutes := some m }

/-- confirmStart at clock reading now: start from the pending selection, a
no-op when none is pending; afterwards both pending fields are cleared. -/
def confirmStart (s : St) (now : Int) : St :=
  match s.pendingExactEnd with
  | some e =>
    { startUntil s now e with pendingMinutes := none, pendingExactEnd := none }
  | none =>
    match s.pendingMinutes with
    | some m =>
      { start s now m with pendingMinutes := none, pendingExactEnd := none }
    | none => s

/-- cancelPending: drop the pending selection. -/
def cancelPending (s : St) : St :=
  { s with pendingMinutes := none, pendingExactEnd := none }

/-- previewPreciseEnd at clock reading now: stage the parsed precise end as
the pending exact end when it lies in the future. -/
def previewPreciseEnd (s : St) (now : Int) : St :=
  match s.preciseEnd with
  | some e =>
    if now < e then { s with pendingMinutes := none, pendingExactEnd := some e }
    else s
  | none => s

/-- setPrecise(date) at clock reading now: truncate the date to whole minutes,
store it in the precise-end input, and stage it as the pending exact end when
it is in the future. -/
def setPrecise (s : St) (now date : Int) : St :=
  if now < date - date % 60000 then
    { s with
      preciseEnd := some (date - date % 60000)
      pendingMinutes := none
      pendingExactEnd := some (date - date % 60000) }
  else { s with preciseEnd := some (date - date % 60000) }

/-- shortcutEndOfDay at clock reading now: compute the next 17:00
America/New_York instant and hand it to setPrecise. -/
def shortcutEndOfDay (s : St) (now : Int) : St :=
  setPrecise s now (shortcutEndOfDayTarget now)

/-- A firing of the periodic callback. -/
def tick (s : St) (now : Int) : St :=
  match s.tickHandle, s.endTime with
  | some _, some endMs => update s endMs now
  | _, _ => s

/-- User edit of the custom-minutes input (v-model). -/
def setCustom (s : St) (v : String) : St := { s with customMinutes := v }

/-- User edit of the precise-end datetime-local input, recorded as its parsed
value. -/
def setPreciseInput (s : St) (v : Option Int) : St := { s with preciseEnd := v }

/-- One user or timer event of this variant. -/
inductive Op where
  | choosePreset (m : Int)
  | startCustom
  | confirmStart (now : Int)
  | cancelPending
  | cancel
  | previewPreciseEnd (now : Int)
  | setPrecise (now date : Int)
  | shortcutEndOfDay (now : Int)
  | tick (now : Int)
  | setCustom (v : String)
  | setPreciseInput (v : Option Int)

/-- Event application. -/
def apply (s : St) : Op → St
  | .choosePreset m => choosePreset s m
  | .startCustom => startCustom s
  | .confirmStart now => confirmStart s now
  | .cancelPending => cancelPending s
  | .cancel => cancel s
  | .previewPreciseEnd now => previewPreciseEnd s now
  | .setPrecise now date => setPrecise s now date
  | .shortcutEndOfDay now => shortcutEndOfDay s now
  | .tick now => tick s now
  | .setCustom v => setCustom s v
  | .setPreciseInput v => setPreciseInput s v

/-- Run a sequence of events from a state. -/
def run (s : St) (l : List Op) : St := l.foldl apply s

/-- Scheduler invariant: the set of active periodic callbacks is exactly the
stored handle. -/
def handleInv (s : St) : Prop :=
  s.intervals = (match s.tickHandle with | some h => [h] | none => [])

/-- Pending-selection invariant: at most one of the pending fields is set. -/
def pendInv (s : St) : Prop :=
  s.pendingMinutes = none ∨ s.pendingExactEnd = none

end Overdue

namespace Plain

/-- State of the part_000 variant with preset/custom pending selections only
(no precise end); remaining time is not clamped and there is no auto-stop. -/
structure St where
  pendingMinutes : Option Int
  customMinutes : String
  running : Bool
  startTime : Option Int
  endTime : Option Int
  remainingMs : Int
  tickHandle : Option Nat
  intervals : List Nat
  nextId : Nat

/-- Initial state on mount. -/
def init : St :=
  { pendingMinutes := none
    customMinutes := ""
    running := false
    startTime := none
    endTime := none
    remainingMs := 0
    tickHandle := none
    intervals := []
    nextId := 0 }

/-- clearTimer: clearInterval on the stored handle, if any, then null it. -/
def clearTimer (s : St) : St :=
  match s.tickHandle with
  | some h => { s with tickHandle := none, intervals := s.intervals.erase h }
  | none => s

/-- One execution of the update closure: recompute the remaining time with no
clamping. -/
def update (s : St) (endMs now : Int) : St :=
  { s with remainingMs := endMs - now }

/-- window.setInterval: register a fresh periodic callback. -/
def setTick (s : St) : St :=
  { s with
    tickHandle := some s.nextId
    intervals := s.nextId :: s.intervals
    nextId := s.nextId + 1 }

/-- start(minutes) at clock reading now. -/
def start (s : St) (now minutes : Int) : St :=
  setTick (update
    { clearTimer s with
      startTime := some now
      endTime := some (now + minutes * 60000)
      running := true }
    (now + minutes * 60000) now)

/-- confirmStart at clock reading now: a no-op when no minutes are pending,
otherwise start and clear the pending selection. -/
def confirmStart (s : St) (now : Int) : St :=
  match s.pendingMinutes with
  | some m => { start s now m with pendingMinutes := none }
  | none => s

end Plain

theorem scanPickF_spec (f : Nat → Int) :
    ∀ (fuel i : Nat) (r : Int), 0 ≤ r → cum f i + r < cum f (i + fuel) →
      i ≤ (scanPickF f fuel i r).1 ∧ (scanPickF f fuel i r).1 < i + fuel ∧
      cum f (scanPickF f fuel i r).1 + (scanPickF f fuel i r).2 = cum f i + r ∧
      0 ≤ (scanPickF f fuel i r).2 ∧
      (scanPickF f fuel i r).2 < f (scanPickF f fuel i r).1 := by
  intro fuel
  induction fuel with
  | zero =>
    intro i r h0 hlt
    rw [Nat.add_zero] at hlt
    omega
  | succ n ih =>
    intro i r h0 hlt
    have hdef : scanPickF f (n + 1) i r =
        if r < f i then (i, r) else scanPickF f n (i + 1) (r - f i) := rfl
    by_cases hc : r < f i
    · have hres : scanPickF f (n + 1) i r = (i, r) := by rw [hdef, if_pos hc]
      rw [hres]
      refine ⟨Nat.le_refl i, by omega, by ring, h0, hc⟩
    · have hres : scanPickF f (n + 1) i r = scanPickF f n (i + 1) (r - f i) := by
        rw [hdef, if_neg hc]
      have hstep : cum f (i + 1) = cum f i + f i := rfl
      have hlt2 : cum f (i + 1) + (r - f i) < cum f (i + 1 + n) := by
        rw [show i + 1 + n = i + (n + 1) from by omega]
        omega
      obtain ⟨ha, hb, hcum, hd, he⟩ := ih (i + 1) (r - f i) (by omega) hlt2
      rw [hres]
      refine ⟨by omega, by omega, by omega, hd, he⟩

theorem isLeap_iff (y : Int) :
    isLeap y = true ↔
      (y % 4 = 0 ∧ (y % 100 ≠ 0 ∨ y % 400 = 0)) := by
  simp [isLeap]

theorem yearLength_eq (y : Int) :
    yearLength y =
      if y % 4 = 0 ∧ (y % 100 ≠ 0 ∨ y % 400 = 0) then 366
      else 365 := by
  unfold yearLength
  by_cases h : y % 4 = 0 ∧ (y % 100 ≠ 0 ∨ y % 400 = 0)
  · rw [if_pos ((isLeap_iff y).mpr h), if_pos h]
  · rw [if_neg (fun hb => h ((isLeap_iff y).mp hb)), if_neg h]

theorem dty_step (y : Int) : dty (y + 1) = dty y + yearLength y := by
  rw [yearLength_eq]
  unfold dty
  by_cases h : y % 4 = 0 ∧ (y % 100 ≠ 0 ∨ y % 400 = 0)
  · rw [if_pos h]
    omega
  · rw [if_neg h]
    omega

theorem dty_cum : ∀ i : Nat, i ≤ 400 →
    dty (2000 + (i : Int)) = 10957 + cum yearLengthsFrom2000 i := by
  intro i
  induction i with
  | zero =>
    intro _
    decide
  | succ n ih =>
    intro h
    have h1 : (2000 : Int) + ((n : Int) + 1) = (2000 + (n : Int)) + 1 := by ring
    have h2 : ((n + 1 : Nat) : Int) = (n : Int) + 1 := by push_cast; ring
    rw [h2, h1, dty_step, ih (by omega)]
    have h3 : cum yearLengthsFrom2000 (n + 1) =
        cum yearLengthsFrom2000 n + yearLength (2000 + (n : Int)) := rfl
    rw [h3]
    ring

theorem cum_yearLengths_400 : cum yearLengthsFrom2000 400 = 146097 := by
  have h := dty_cum 400 (by omega)
  have hc : ((400 : Nat) : Int) = 400 := by norm_num
  rw [hc] at h
  have h2 : dty (2000 + (400 : Int)) = 157054 := by decide
  omega

theorem isLeap_per (x e : Int) : isLeap (x + 400 * e) = isLeap x := by
  unfold isLeap
  have h4 : (x + 400 * e) % 4 = x % 4 := by omega
  have h100 : (x + 400 * e) % 100 = x % 100 := by omega
  have h400 : (x + 400 * e) % 400 = x % 400 := by omega
  rw [h4, h100, h400]

theorem yearLength_per (x e : Int) : yearLength (x + 400 * e) = yearLength x := by
  unfold yearLength
  rw [isLeap_per]

theorem dty_per (x e : Int) : dty (x + 400 * e) = dty x + 146097 * e := by
  unfold dty
  omega

theorem cum_monthLen (y : Int) : cum (monthLen (isLeap y)) 12 = yearLength y := by
  unfold yearLength
  by_cases h : isLeap y = true
  · rw [h, if_pos rfl]
    decide
  · have h2 : isLeap y = false := by
      cases hb : isLeap y
      · rfl
      · exact absurd hb h
    rw [h2]
    decide

theorem rt_aux (era doe : Int) (h0 : 0 ≤ doe) (h1 : doe < 146097)
    (yi : Nat) (doy : Int)
    (hscan : scanPickF yearLengthsFrom2000 400 0 doe = (yi, doy))
    (mi : Nat) (dm : Int)
    (hscan2 : scanPickF (monthLen (isLeap (2000 + 400 * era + (yi : Int)))) 12 0 doy
      = (mi, dm)) :
    daysFromCivil (2000 + 400 * era + (yi : Int)) ((mi : Int) + 1 - 1) (dm + 1) =
      10957 + 146097 * era + doe := by
  have hbound : cum yearLengthsFrom2000 0 + doe < cum yearLengthsFrom2000 (0 + 400) := by
    have : cum yearLengthsFrom2000 (0 + 400) = cum yearLengthsFrom2000 400 := by
      rw [Nat.zero_add]
    rw [this, cum_yearLengths_400]
    simp [cum]
    omega
  have hs1 := scanPickF_spec yearLengthsFrom2000 400 0 doe h0 hbound
  rw [hscan] at hs1
  obtain ⟨-, hyi400, hcum1, hdoy0, hdoylt⟩ := hs1
  simp only [cum, Nat.zero_add] at hcum1 hyi400
  set y := 2000 + 400 * era + (yi : Int) with hy
  have hyper : y = (2000 + (yi : Int)) + 400 * era := by rw [hy]; ring
  have hylen : yearLength y = yearLength (2000 + (yi : Int)) := by
    rw [hyper, yearLength_per]
  have hdoylt2 : doy < yearLength y := by
    rw [hylen]
    exact lt_of_lt_of_le hdoylt (le_of_eq rfl)
  have hbound2 : cum (monthLen (isLeap y)) 0 + doy < cum (monthLen (isLeap y)) (0 + 12) := by
    have h12 : cum (monthLen (isLeap y)) (0 + 12) = yearLength y := by
      rw [Nat.zero_add, cum_monthLen]
    rw [h12]
    simp [cum]
    omega
  have hs2 := scanPickF_spec (monthLen (isLeap y)) 12 0 doy hdoy0 hbound2
  rw [hscan2] at hs2
  obtain ⟨-, hmi12, hcum2, hdm0, hdmlt⟩ := hs2
  simp only [cum, Nat.zero_add] at hcum2 hmi12
  unfold daysFromCivil
  have hmidiv : ((mi : Int) + 1 - 1) / 12 = 0 := by omega
  have hmimod : ((mi : Int) + 1 - 1) % 12 = (mi : Int) := by omega
  rw [hmidiv, hmimod]
  have htonat : ((mi : Int)).toNat = mi := Int.toNat_natCast mi
  rw [htonat]
  have hdty : dty (y + 0) = dty (2000 + (yi : Int)) + 146097 * era := by
    rw [show y + 0 = (2000 + (yi : Int)) + 400 * era from by rw [hyper]; ring, dty_per]
  have hdtycum : dty (2000 + (yi : Int)) = 10957 + cum yearLengthsFrom2000 yi :=
    dty_cum yi (by omega)
  have hleap : isLeap (y + 0) = isLeap y := by rw [Int.add_zero]
  rw [hleap]
  have : dty (y + 0) + cum (monthLen (isLeap y)) mi + (dm + 1 - 1) =
      dty (y + 0) + (cum (monthLen (isLeap y)) mi + dm) := by ring
  rw [this, hcum2, hdty, hdtycum]
  omega

theorem daysFromCivil_civilFromDays (z : Int) :
    daysFromCivil (civilFromDays z).1 ((civilFromDays z).2.1 - 1)
      (civilFromDays z).2.2 = z := by
  have h0 : 0 ≤ (z - 10957) % 146097 := by omega
  have h1 : (z - 10957) % 146097 < 146097 := by omega
  have hpair1 : scanPickF yearLengthsFrom2000 400 0 ((z - 10957) % 146097) =
      ((scanPickF yearLengthsFrom2000 400 0 ((z - 10957) % 146097)).1,
       (scanPickF yearLengthsFrom2000 400 0 ((z - 10957) % 146097)).2) := rfl
  have key := rt_aux ((z - 10957) / 146097) ((z - 10957) % 146097) h0 h1
    (scanPickF yearLengthsFrom2000 400 0 ((z - 10957) % 146097)).1
    (scanPickF yearLengthsFrom2000 400 0 ((z - 10957) % 146097)).2
    hpair1
    (scanPickF (monthLen (isLeap (2000 + 400 * ((z - 10957) / 146097) +
      ((scanPickF yearLengthsFrom2000 400 0 ((z - 10957) % 146097)).1 : Int)))) 12 0
      (scanPickF yearLengthsFrom2000 400 0 ((z - 10957) % 146097)).2).1
    (scanPickF (monthLen (isLeap (2000 + 400 * ((z - 10957) / 146097) +
      ((scanPickF yearLengthsFrom2000 400 0 ((z - 10957) % 146097)).1 : Int)))) 12 0
      (scanPickF yearLengthsFrom2000 400 0 ((z - 10957) % 146097)).2).2
    rfl
  have hz : 10957 + 146097 * ((z - 10957) / 146097) + (z - 10957) % 146097 = z := by
    omega
  rw [hz] at key
  exact key

theorem partsRT (x : Int) :
    dateUTC (epochToParts x).year ((epochToParts x).month - 1) (epochToParts x).day
      (epochToParts x).hour (epochToParts x).minute (epochToParts x).second
      = x - x % 1000 := by
  have h1 := daysFromCivil_civilFromDays (x / 86400000)
  show daysFromCivil (civilFromDays (x / 86400000)).1
      ((civilFromDays (x / 86400000)).2.1 - 1) (civilFromDays (x / 86400000)).2.2 * 86400000 +
      (x % 86400000) / 3600000 * 3600000 +
      (x % 86400000 % 3600000) / 60000 * 60000 +
      (x % 86400000 % 60000) / 1000 * 1000 = x - x % 1000
  rw [h1]
  omega

theorem partsRT_days (x : Int) :
    daysFromCivil (epochToParts x).year ((epochToParts x).month - 1)
      (epochToParts x).day = x / 86400000 :=
  daysFromCivil_civilFromDays (x / 86400000)

theorem nyOffset_cases (ts : Int) :
    nyOffsetMs ts = -14400000 ∨ nyOffsetMs ts = -18000000 := by
  unfold nyOffsetMs
  by_cases h : dstStartUtc (utcYearOf ts) ≤ ts ∧ ts < dstEndUtc (utcYearOf ts)
  · left
    rw [if_pos h]
  · right
    rw [if_neg h]

theorem getOffsetMs_eq (ts : Int) : getOffsetMs ts = nyOffsetMs ts - ts % 1000 := by
  unfold getOffsetMs nyParts
  rw [partsRT]
  rcases nyOffset_cases ts with h | h <;> rw [h] <;> omega

theorem zonedTimeToUtc_eq (y mo d h mi : Int) :
    zonedTimeToUtc y mo d h mi =
      dateUTC y (mo - 1) d h mi 0 -
        getOffsetMs (dateUTC y (mo - 1) d h mi 0 -
          getOffsetMs (dateUTC y (mo - 1) d h mi 0)) := rfl

theorem nyOffset_stable (ts d : Int) (h0 : 0 ≤ d)
    (h1 : 25200000 ≤ ts % 86400000)
    (h2 : ts % 86400000 + d < 86400000) :
    nyOffsetMs (ts + d) = nyOffsetMs ts := by
  have hdiv : (ts + d) / 86400000 = ts / 86400000 := by omega
  have hy : utcYearOf (ts + d) = utcYearOf ts := by
    unfold utcYearOf
    rw [hdiv]
  obtain ⟨A, hA⟩ : ∃ A, dstStartUtc (utcYearOf ts) = A * 86400000 + 25200000 :=
    ⟨daysFromCivil (utcYearOf ts) 2 (secondSundayMarch (utcYearOf ts)), by
      unfold dstStartUtc dateUTC
      ring⟩
  obtain ⟨B, hB⟩ : ∃ B, dstEndUtc (utcYearOf ts) = B * 86400000 + 21600000 :=
    ⟨daysFromCivil (utcYearOf ts) 10 (firstSundayNovember (utcYearOf ts)), by
      unfold dstEndUtc dateUTC
      ring⟩
  unfold nyOffsetMs
  rw [hy]
  have hcond : (dstStartUtc (utcYearOf ts) ≤ ts + d ∧ ts + d < dstEndUtc (utcYearOf ts)) ↔
      (dstStartUtc (utcYearOf ts) ≤ ts ∧ ts < dstEndUtc (utcYearOf ts)) := by
    rw [hA, hB]
    constructor <;> intro hh <;> exact ⟨by omega, by omega⟩
  rw [if_congr hcond rfl rfl]

theorem zonedFix (y mo d h mi : Int)
    (hlo : 25200000 ≤ h * 3600000 + mi * 60000)
    (hhi : h * 3600000 + mi * 60000 + 18000000 < 86400000) :
    zonedTimeToUtc y mo d h mi =
      dateUTC y (mo - 1) d h mi 0 - nyOffsetMs (dateUTC y (mo - 1) d h mi 0) ∧
    nyOffsetMs (zonedTimeToUtc y mo d h mi) =
      nyOffsetMs (dateUTC y (mo - 1) d h mi 0) := by
  obtain ⟨X, hX⟩ : ∃ X, dateUTC y (mo - 1) d h mi 0 =
      X * 86400000 + (h * 3600000 + mi * 60000) :=
    ⟨daysFromCivil y (mo - 1) d, by
      unfold dateUTC
      ring⟩
  have hmod : dateUTC y (mo - 1) d h mi 0 % 86400000 = h * 3600000 + mi * 60000 := by
    omega
  have h1000 : dateUTC y (mo - 1) d h mi 0 % 1000 = 0 := by omega
  have hoff1 : getOffsetMs (dateUTC y (mo - 1) d h mi 0) =
      nyOffsetMs (dateUTC y (mo - 1) d h mi 0) := by
    rw [getOffsetMs_eq]
    omega
  rcases nyOffset_cases (dateUTC y (mo - 1) d h mi 0) with ho | ho
  · have hstab : nyOffsetMs (dateUTC y (mo - 1) d h mi 0 + 14400000) =
        nyOffsetMs (dateUTC y (mo - 1) d h mi 0) :=
      nyOffset_stable _ 14400000 (by norm_num) (by omega) (by omega)
    have hg : dateUTC y (mo - 1) d h mi 0 - getOffsetMs (dateUTC y (mo - 1) d h mi 0) =
        dateUTC y (mo - 1) d h mi 0 + 14400000 := by
      rw [hoff1, ho]
      ring
    have hoff2 : getOffsetMs (dateUTC y (mo - 1) d h mi 0 -
        getOffsetMs (dateUTC y (mo - 1) d h mi 0)) =
        nyOffsetMs (dateUTC y (mo - 1) d h mi 0) := by
      rw [hg, getOffsetMs_eq, hstab]
      omega
    constructor
    · rw [zonedTimeToUtc_eq, hoff2]
    · rw [zonedTimeToUtc_eq, hoff2]
      rw [show dateUTC y (mo - 1) d h mi 0 - nyOffsetMs (dateUTC y (mo - 1) d h mi 0) =
          dateUTC y (mo - 1) d h mi 0 + 14400000 from by rw [ho]; ring]
      exact hstab
  · have hstab : nyOffsetMs (dateUTC y (mo - 1) d h mi 0 + 18000000) =
        nyOffsetMs (dateUTC y (mo - 1) d h mi 0) :=
      nyOffset_stable _ 18000000 (by norm_num) (by omega) (by omega)
    have hg : dateUTC y (mo - 1) d h mi 0 - getOffsetMs (dateUTC y (mo - 1) d h mi 0) =
        dateUTC y (mo - 1) d h mi 0 + 18000000 := by
      rw [hoff1, ho]
      ring
    have hoff2 : getOffsetMs (dateUTC y (mo - 1) d h mi 0 -
        getOffsetMs (dateUTC y (mo - 1) d h mi 0)) =
        nyOffsetMs (dateUTC y (mo - 1) d h mi 0) := by
      rw [hg, getOffsetMs_eq, hstab]
      omega
    constructor
    · rw [zonedTimeToUtc_eq, hoff2]
    · rw [zonedTimeToUtc_eq, hoff2]
      rw [show dateUTC y (mo - 1) d h mi 0 - nyOffsetMs (dateUTC y (mo - 1) d h mi 0) =
          dateUTC y (mo - 1) d h mi 0 + 18000000 from by rw [ho]; ring]
      exact hstab

theorem parts_hour_minute (xx : Int) (hm : xx % 86400000 = 61200000) :
    (epochToParts xx).hour = 17 ∧ (epochToParts xx).minute = 0 := by
  constructor
  · show xx % 86400000 / 3600000 = 17
    rw [hm]
    decide
  · show xx % 86400000 % 3600000 / 60000 = 0
    rw [hm]
    decide

theorem zoned17_spec (y mo d : Int) :
    (nyParts (zonedTimeToUtc y mo d 17 0)).hour = 17 ∧
    (nyParts (zonedTimeToUtc y mo d 17 0)).minute = 0 ∧
    zonedTimeToUtc y mo d 17 0 % 60000 = 0 ∧
    daysFromCivil y (mo - 1) d * 86400000 + 75600000 ≤ zonedTimeToUtc y mo d 17 0 ∧
    zonedTimeToUtc y mo d 17 0 ≤ daysFromCivil y (mo - 1) d * 86400000 + 79200000 := by
  obtain ⟨ha, hb⟩ := zonedFix y mo d 17 0 (by norm_num) (by norm_num)
  have hC : dateUTC y (mo - 1) d 17 0 0 =
      daysFromCivil y (mo - 1) d * 86400000 + 61200000 := by
    unfold dateUTC
    ring
  have hsum : zonedTimeToUtc y mo d 17 0 + nyOffsetMs (zonedTimeToUtc y mo d 17 0) =
      dateUTC y (mo - 1) d 17 0 0 := by
    rw [hb, ha]
    ring
  have hm : (zonedTimeToUtc y mo d 17 0 + nyOffsetMs (zonedTimeToUtc y mo d 17 0)) %
      86400000 = 61200000 := by
    rw [hsum]
    omega
  obtain ⟨hh, hmin⟩ := parts_hour_minute _ hm
  refine ⟨hh, hmin, ?_, ?_, ?_⟩ <;>
    rcases nyOffset_cases (dateUTC y (mo - 1) d 17 0 0) with ho | ho <;>
    rw [ha] <;> omega

theorem noon_spec (y mo d : Int) :
    daysFromCivil y (mo - 1) d * 86400000 + 57600000 ≤ zonedTimeToUtc y mo d 12 0 ∧
    zonedTimeToUtc y mo d 12 0 ≤ daysFromCivil y (mo - 1) d * 86400000 + 61200000 := by
  obtain ⟨ha, hb⟩ := zonedFix y mo d 12 0 (by norm_num) (by norm_num)
  have hC : dateUTC y (mo - 1) d 12 0 0 =
      daysFromCivil y (mo - 1) d * 86400000 + 43200000 := by
    unfold dateUTC
    ring
  constructor <;>
    rcases nyOffset_cases (dateUTC y (mo - 1) d 12 0 0) with ho | ho <;>
    rw [ha] <;> omega

theorem shortcutTarget_good (now : Int) :
    now < shortcutEndOfDayTarget now ∧
    (nyParts (shortcutEndOfDayTarget now)).hour = 17 ∧
    (nyParts (shortcutEndOfDayTarget now)).minute = 0 ∧
    shortcutEndOfDayTarget now % 60000 = 0 := by
  have hdefS : shortcutEndOfDayTarget now =
      if zonedTimeToUtc (nyParts now).year (nyParts now).month (nyParts now).day 17 0 ≤ now
      then
        zonedTimeToUtc
          (nyParts (zonedTimeToUtc (nyParts now).year (nyParts now).month
            (nyParts now).day 12 0 + 86400000)).year
          (nyParts (zonedTimeToUtc (nyParts now).year (nyParts now).month
            (nyParts now).day 12 0 + 86400000)).month
          (nyParts (zonedTimeToUtc (nyParts now).year (nyParts now).month
            (nyParts now).day 12 0 + 86400000)).day 17 0
      else zonedTimeToUtc (nyParts now).year (nyParts now).month (nyParts now).day 17 0 := rfl
  have hD : daysFromCivil (nyParts now).year ((nyParts now).month - 1) (nyParts now).day =
      (now + nyOffsetMs now) / 86400000 := partsRT_days (now + nyOffsetMs now)
  obtain ⟨h17h, h17m, h17mod, h17lo, h17hi⟩ :=
    zoned17_spec (nyParts now).year (nyParts now).month (nyParts now).day
  by_cases hif :
      zonedTimeToUtc (nyParts now).year (nyParts now).month (nyParts now).day 17 0 ≤ now
  · rw [hdefS, if_pos hif]
    obtain ⟨h12lo, h12hi⟩ :=
      noon_spec (nyParts now).year (nyParts now).month (nyParts now).day
    set tomorrowEt := zonedTimeToUtc (nyParts now).year (nyParts now).month
      (nyParts now).day 12 0 + 86400000 with hTdef
    have hD2 : daysFromCivil (nyParts tomorrowEt).year ((nyParts tomorrowEt).month - 1)
        (nyParts tomorrowEt).day = (tomorrowEt + nyOffsetMs tomorrowEt) / 86400000 :=
      partsRT_days (tomorrowEt + nyOffsetMs tomorrowEt)
    have hdiv : (tomorrowEt + nyOffsetMs tomorrowEt) / 86400000 =
        (now + nyOffsetMs now) / 86400000 + 1 := by
      rcases nyOffset_cases tomorrowEt with ho2 | ho2 <;> omega
    obtain ⟨g17h, g17m, g17mod, g17lo, g17hi⟩ :=
      zoned17_spec (nyParts tomorrowEt).year (nyParts tomorrowEt).month
        (nyParts tomorrowEt).day
    refine ⟨?_, g17h, g17m, g17mod⟩
    rcases nyOffset_cases now with hon | hon <;> omega
  · rw [hdefS, if_neg hif]
    exact ⟨by omega, h17h, h17m, h17mod⟩

/-- C1: the zoned wall-clock-to-instant conversion follows the specified
two-iteration fixed-point offset correction: for every year/month/day/
hour/minute input, the returned instant equals
candidate - offset(candidate - offset(candidate)), where candidate is the
Date.UTC instant for the target wall-clock time assuming offset 0 and offset
is the zone offset query (stated both with the code's getOffsetMs and with the
underlying actual America/New_York UTC offset nyOffsetMs, which agree at such
whole-minute candidates). -/
theorem claim_C1 (y mo d h mi : Int) :
    zonedTimeToUtc y mo d h mi =
      dateUTC y (mo - 1) d h mi 0 -
        getOffsetMs (dateUTC y (mo - 1) d h mi 0 -
          getOffsetMs (dateUTC y (mo - 1) d h mi 0)) ∧
    zonedTimeToUtc y mo d h mi =
      dateUTC y (mo - 1) d h mi 0 -
        nyOffsetMs (dateUTC y (mo - 1) d h mi 0 -
          nyOffsetMs (dateUTC y (mo - 1) d h mi 0)) := by
  refine ⟨zonedTimeToUtc_eq y mo d h mi, ?_⟩
  obtain ⟨X, hX⟩ : ∃ X, dateUTC y (mo - 1) d h mi 0 = X * 1000 :=
    ⟨daysFromCivil y (mo - 1) d * 86400 + h * 3600 + mi * 60, by
      unfold dateUTC
      ring⟩
  have h1000 : dateUTC y (mo - 1) d h mi 0 % 1000 = 0 := by omega
  have ho1 : getOffsetMs (dateUTC y (mo - 1) d h mi 0) =
      nyOffsetMs (dateUTC y (mo - 1) d h mi 0) := by
    rw [getOffsetMs_eq]
    omega
  have hg1000 : (dateUTC y (mo - 1) d h mi 0 -
      nyOffsetMs (dateUTC y (mo - 1) d h mi 0)) % 1000 = 0 := by
    rcases nyOffset_cases (dateUTC y (mo - 1) d h mi 0) with ho | ho <;> omega
  have ho2 : getOffsetMs (dateUTC y (mo - 1) d h mi 0 -
      nyOffsetMs (dateUTC y (mo - 1) d h mi 0)) =
      nyOffsetMs (dateUTC y (mo - 1) d h mi 0 -
        nyOffsetMs (dateUTC y (mo - 1) d h mi 0)) := by
    rw [getOffsetMs_eq]
    omega
  rw [zonedTimeToUtc_eq, ho1, ho2]

/-- C2 counterexample: at now = 2024-03-09T06:30:00Z the shortcutEndOfDay
computation returns 2024-03-09T22:00:00Z (17:00 EST is UTC+5h), not the
2024-03-09T21:00:00Z instant stated in the claim. -/
theorem claim_C2_counterexample :
    shortcutEndOfDayTarget (dateUTC 2024 2 9 6 30 0) ≠ dateUTC 2024 2 9 21 0 0 ∧
    shortcutEndOfDayTarget (dateUTC 2024 2 9 6 30 0) = dateUTC 2024 2 9 22 0 0 := by
  decide

/-- C2 (amended): for every now, the resolved 17:00 America/New_York instant
of shortcutEndOfDay is strictly after now - when the same-day 17:00 ET
instant is not strictly after now the computation advances one calendar day -
and its wall-clock projection in the target zone is exactly 17:00, including
across DST transitions; in particular, for now = 2024-03-09T06:30:00Z the
result is the instant 2024-03-09T22:00:00Z (17:00 EST, UTC-5). -/
theorem claim_C2 :
    (∀ now : Int,
      now < shortcutEndOfDayTarget now ∧
      (nyParts (shortcutEndOfDayTarget now)).hour = 17 ∧
      (nyParts (shortcutEndOfDayTarget now)).minute = 0) ∧
    (∀ (s : Overdue.St) (now : Int),
      (Overdue.shortcutEndOfDay s now).pendingExactEnd =
        some (shortcutEndOfDayTarget now)) ∧
    shortcutEndOfDayTarget (dateUTC 2024 2 9 6 30 0) = dateUTC 2024 2 9 22 0 0 := by
  refine ⟨?_, ?_, by decide⟩
  · intro now
    obtain ⟨h1, h2, h3, -⟩ := shortcutTarget_good now
    exact ⟨h1, h2, h3⟩
  · intro s now
    obtain ⟨h1, -, -, h4⟩ := shortcutTarget_good now
    unfold Overdue.shortcutEndOfDay Overdue.setPrecise
    rw [if_pos (by omega)]
    show some (shortcutEndOfDayTarget now - shortcutEndOfDayTarget now % 60000) =
      some (shortcutEndOfDayTarget now)
    congr 1
    omega

theorem autoStop_inv_clearTimer (s : AutoStop.St) (h : AutoStop.handleInv s) :
    AutoStop.handleInv (AutoStop.clearTimer s) := by
  unfold AutoStop.handleInv at h ⊢
  unfold AutoStop.clearTimer
  cases hh : s.tickHandle with
  | none =>
    simp only [hh] at h ⊢
    simpa using h
  | some k =>
    simp only [hh] at h ⊢
    simp [h, List.erase_cons_head]

theorem autoStop_clearTimer_handle (s : AutoStop.St) :
    (AutoStop.clearTimer s).tickHandle = none := by
  unfold AutoStop.clearTimer
  cases hh : s.tickHandle with
  | none => exact hh
  | some k => rfl

theorem autoStop_inv_update (s : AutoStop.St) (endMs now : Int)
    (h : AutoStop.handleInv s) : AutoStop.handleInv (AutoStop.update s endMs now) := by
  have hdef : AutoStop.update s endMs now =
      if endMs - now ≤ 0 then
        { AutoStop.clearTimer { s with remainingMs := max 0 (endMs - now) } with
          running := false }
      else { s with remainingMs := max 0 (endMs - now) } := rfl
  rw [hdef]
  have h1 : AutoStop.handleInv { s with remainingMs := max 0 (endMs - now) } := h
  by_cases hd : endMs - now ≤ 0
  · rw [if_pos hd]
    exact autoStop_inv_clearTimer _ h1
  · rw [if_neg hd]
    exact h1

theorem autoStop_update_handle (s : AutoStop.St) (endMs now : Int)
    (hn : s.tickHandle = none) :
    (AutoStop.update s endMs now).tickHandle = none := by
  have hdef : AutoStop.update s endMs now =
      if endMs - now ≤ 0 then
        { AutoStop.clearTimer { s with remainingMs := max 0 (endMs - now) } with
          running := false }
      else { s with remainingMs := max 0 (endMs - now) } := rfl
  rw [hdef]
  by_cases hd : endMs - now ≤ 0
  · rw [if_pos hd]
    exact autoStop_clearTimer_handle _
  · rw [if_neg hd]
    exact hn

theorem autoStop_inv_setTick (s : AutoStop.St) (hn : s.tickHandle = none)
    (h : AutoStop.handleInv s) : AutoStop.handleInv (AutoStop.setTick s) := by
  unfold AutoStop.handleInv at h ⊢
  unfold AutoStop.setTick
  rw [hn] at h
  simp only [] at h ⊢
  simp [h]

theorem autoStop_inv_start (s : AutoStop.St) (now minutes : Int)
    (h : AutoStop.handleInv s) :
    AutoStop.handleInv (AutoStop.start s now minutes) := by
  unfold AutoStop.start
  apply autoStop_inv_setTick
  · exact autoStop_update_handle _ _ _ (autoStop_clearTimer_handle s)
  · exact autoStop_inv_update _ _ _ (autoStop_inv_clearTimer s h)

theorem autoStop_inv_apply (s : AutoStop.St) (op : AutoStop.Op)
    (h : AutoStop.handleInv s) : AutoStop.handleInv (AutoStop.apply s op) := by
  cases op with
  | start now minutes => exact autoStop_inv_start s now minutes h
  | startCustom now =>
    show AutoStop.handleInv (AutoStop.startCustom s now)
    cases hp : parsedCustomMinutes s.customMinutes with
    | none =>
      have hdef : AutoStop.startCustom s now = s := by
        unfold AutoStop.startCustom
        rw [hp]
      rw [hdef]
      exact h
    | some n =>
      have hdef : AutoStop.startCustom s now =
          if n = 0 then s
          else { AutoStop.start s now n with customMinutes := "" } := by
        unfold AutoStop.startCustom
        rw [hp]
      rw [hdef]
      by_cases hz : n = 0
      · rw [if_pos hz]
        exact h
      · rw [if_neg hz]
        exact autoStop_inv_start s now n h
  | cancel => exact autoStop_inv_clearTimer s h
  | tick now =>
    show AutoStop.handleInv (AutoStop.tick s now)
    unfold AutoStop.tick
    cases h1 : s.tickHandle with
    | none => exact h
    | some k =>
      cases h2 : s.endTime with
      | none => exact h
      | some e => exact autoStop_inv_update s e now h
  | setCustom v => exact h
  | setHovered v => exact h

theorem autoStop_inv_run (l : List AutoStop.Op) :
    ∀ s : AutoStop.St, AutoStop.handleInv s →
      AutoStop.handleInv (AutoStop.run s l) := by
  induction l with
  | nil => intro s h; exact h
  | cons op t ih =>
    intro s h
    exact ih (AutoStop.apply s op) (autoStop_inv_apply s op h)

theorem autoStop_intervals_le_one (s : AutoStop.St) (h : AutoStop.handleInv s) :
    s.intervals.length ≤ 1 := by
  unfold AutoStop.handleInv at h
  cases hh : s.tickHandle with
  | none =>
    rw [hh] at h
    simp [h]
  | some k =>
    rw [hh] at h
    simp [h]

theorem overdue_inv_clearTimer (s : Overdue.St) (h : Overdue.handleInv s) :
    Overdue.handleInv (Overdue.clearTimer s) := by
  unfold Overdue.handleInv at h ⊢
  unfold Overdue.clearTimer
  cases hh : s.tickHandle with
  | none =>
    simp only [hh] at h ⊢
    simpa using h
  | some k =>
    simp only [hh] at h ⊢
    simp [h, List.erase_cons_head]

theorem overdue_clearTimer_handle (s : Overdue.St) :
    (Overdue.clearTimer s).tickHandle = none := by
  unfold Overdue.clearTimer
  cases hh : s.tickHandle with
  | none => exact hh
  | some k => rfl

theorem overdue_inv_setTick (s : Overdue.St) (hn : s.tickHandle = none)
    (h : Overdue.handleInv s) : Overdue.handleInv (Overdue.setTick s) := by
  unfold Overdue.handleInv at h ⊢
  unfold Overdue.setTick
  rw [hn] at h
  simp only [] at h ⊢
  simp [h]

theorem overdue_inv_start (s : Overdue.St) (now minutes : Int)
    (h : Overdue.handleInv s) :
    Overdue.handleInv (Overdue.start s now minutes) := by
  unfold Overdue.start
  apply overdue_inv_setTick
  · exact overdue_clearTimer_handle s
  · exact overdue_inv_clearTimer s h

theorem overdue_inv_startUntil (s : Overdue.St) (now endMs : Int)
    (h : Overdue.handleInv s) :
    Overdue.handleInv (Overdue.startUntil s now endMs) := by
  unfold Overdue.startUntil
  apply overdue_inv_setTick
  · exact overdue_clearTimer_handle s
  · exact overdue_inv_clearTimer s h

theorem overdue_inv_apply (s : Overdue.St) (op : Overdue.Op)
    (h : Overdue.handleInv s) : Overdue.handleInv (Overdue.apply s op) := by
  cases op with
  | choosePreset m => exact h
  | startCustom =>
    show Overdue.handleInv (Overdue.startCustom s)
    cases hp : parsedCustomMinutes s.customMinutes with
    | none =>
      have hdef : Overdue.startCustom s = s := by
        unfold Overdue.startCustom
        rw [hp]
      rw [hdef]
      exact h
    | some n =>
      have hdef : Overdue.startCustom s =
          if n = 0 then s
          else { s with pendingExactEnd := none, pendingMinutes := some n } := by
        unfold Overdue.startCustom
        rw [hp]
      rw [hdef]
      by_cases hz : n = 0
      · rw [if_pos hz]
        exact h
      · rw [if_neg hz]
        exact h
  | confirmStart now =>
    show Overdue.handleInv (Overdue.confirmStart s now)
    cases he : s.pendingExactEnd with
    | some e =>
      have hdef : Overdue.confirmStart s now =
          { Overdue.startUntil s now e with
            pendingMinutes := none, pendingExactEnd := none } := by
        unfold Overdue.confirmStart
        rw [he]
      rw [hdef]
      exact overdue_inv_startUntil s now e h
    | none =>
      cases hm : s.pendingMinutes with
      | some m =>
        have hdef : Overdue.confirmStart s now =
            { Overdue.start s now m with
              pendingMinutes := none, pendingExactEnd := none } := by
          unfold Overdue.confirmStart
          rw [he, hm]
        rw [hdef]
        exact overdue_inv_start s now m h
      | none =>
        have hdef : Overdue.confirmStart s now = s := by
          unfold Overdue.confirmStart
          rw [he, hm]
        rw [hdef]
        exact h
  | cancelPending => exact h
  | cancel => exact overdue_inv_clearTimer s h
  | previewPreciseEnd now =>
    show Overdue.handleInv (Overdue.previewPreciseEnd s now)
    cases he : s.preciseEnd with
    | none =>
      have hdef : Overdue.previewPreciseEnd s now = s := by
        unfold Overdue.previewPreciseEnd
        rw [he]
      rw [hdef]
      exact h
    | some e =>
      have hdef : Overdue.previewPreciseEnd s now =
          if now < e then
            { s with pendingMinutes := none, pendingExactEnd := some e }
          else s := by
        unfold Overdue.previewPreciseEnd
        rw [he]
      rw [hdef]
      by_cases hf : now < e
      · rw [if_pos hf]
        exact h
      · rw [if_neg hf]
        exact h
  | setPrecise now date =>
    show Overdue.handleInv (Overdue.setPrecise s now date)
    unfold Overdue.setPrecise
    by_cases hf : now < date - date % 60000
    · rw [if_pos hf]
      exact h
    · rw [if_neg hf]
      exact h
  | shortcutEndOfDay now =>
    show Overdue.handleInv (Overdue.shortcutEndOfDay s now)
    unfold Overdue.shortcutEndOfDay Overdue.setPrecise
    by_cases hf : now < shortcutEndOfDayTarget now - shortcutEndOfDayTarget now % 60000
    · rw [if_pos hf]
      exact h
    · rw [if_neg hf]
      exact h
  | tick now =>
    show Overdue.handleInv (Overdue.tick s now)
    unfold Overdue.tick
    cases h1 : s.tickHandle with
    | none => exact h
    | some k =>
      cases h2 : s.endTime with
      | none => exact h
      | some e => exact h
  | setCustom v => exact h
  | setPreciseInput v => exact h

theorem overdue_inv_run (l : List Overdue.Op) :
    ∀ s : Overdue.St, Overdue.handleInv s →
      Overdue.handleInv (Overdue.run s l) := by
  induction l with
  | nil => intro s h; exact h
  | cons op t ih =>
    intro s h
    exact ih (Overdue.apply s op) (overdue_inv_apply s op h)

theorem overdue_intervals_le_one (s : Overdue.St) (h : Overdue.handleInv s) :
    s.intervals.length ≤ 1 := by
  unfold Overdue.handleInv at h
  cases hh : s.tickHandle with
  | none =>
    rw [hh] at h
    simp [h]
  | some k =>
    rw [hh] at h
    simp [h]

theorem overdue_pendInv_apply (s : Overdue.St) (op : Overdue.Op)
    (h : Overdue.pendInv s) : Overdue.pendInv (Overdue.apply s op) := by
  cases op with
  | choosePreset m => right; rfl
  | startCustom =>
    show Overdue.pendInv (Overdue.startCustom s)
    cases hp : parsedCustomMinutes s.customMinutes with
    | none =>
      have hdef : Overdue.startCustom s = s := by
        unfold Overdue.startCustom
        rw [hp]
      rw [hdef]
      exact h
    | some n =>
      have hdef : Overdue.startCustom s =
          if n = 0 then s
          else { s with pendingExactEnd := none, pendingMinutes := some n } := by
        unfold Overdue.startCustom
        rw [hp]
      rw [hdef]
      by_cases hz : n = 0
      · rw [if_pos hz]
        exact h
      · rw [if_neg hz]
        right
        rfl
  | confirmStart now =>
    show Overdue.pendInv (Overdue.confirmStart s now)
    cases he : s.pendingExactEnd with
    | some e =>
      have hdef : Overdue.confirmStart s now =
          { Overdue.startUntil s now e with
            pendingMinutes := none, pendingExactEnd := none } := by
        unfold Overdue.confirmStart
        rw [he]
      rw [hdef]
      left
      rfl
    | none =>
      cases hm : s.pendingMinutes with
      | some m =>
        have hdef : Overdue.confirmStart s now =
            { Overdue.start s now m with
              pendingMinutes := none, pendingExactEnd := none } := by
          unfold Overdue.confirmStart
          rw [he, hm]
        rw [hdef]
        left
        rfl
      | none =>
        have hdef : Overdue.confirmStart s now = s := by
          unfold Overdue.confirmStart
          rw [he, hm]
        rw [hdef]
        exact h
  | cancelPending => left; rfl
  | cancel =>
    show Overdue.pendInv (Overdue.cancel s)
    unfold Overdue.cancel Overdue.clearTimer
    cases hh : s.tickHandle with
    | none => exact h
    | some k => exact h
  | previewPreciseEnd now =>
    show Overdue.pendInv (Overdue.previewPreciseEnd s now)
    cases he : s.preciseEnd with
    | none =>
      have hdef : Overdue.previewPreciseEnd s now = s := by
        unfold Overdue.previewPreciseEnd
        rw [he]
      rw [hdef]
      exact h
    | some e =>
      have hdef : Overdue.previewPreciseEnd s now =
          if now < e then
            { s with pendingMinutes := none, pendingExactEnd := some e }
          else s := by
        unfold Overdue.previewPreciseEnd
        rw [he]
      rw [hdef]
      by_cases hf : now < e
      · rw [if_pos hf]
        left
        rfl
      · rw [if_neg hf]
        exact h
  | setPrecise now date =>
    show Overdue.pendInv (Overdue.setPrecise s now date)
    unfold Overdue.setPrecise
    by_cases hf : now < date - date % 60000
    · rw [if_pos hf]
      left
      rfl
    · rw [if_neg hf]
      exact h
  | shortcutEndOfDay now =>
    show Overdue.pendInv (Overdue.shortcutEndOfDay s now)
    unfold Overdue.shortcutEndOfDay Overdue.setPrecise
    by_cases hf : now < shortcutEndOfDayTarget now - shortcutEndOfDayTarget now % 60000
    · rw [if_pos hf]
      left
      rfl
    · rw [if_neg hf]
      exact h
  | tick now =>
    show Overdue.pendInv (Overdue.tick s now)
    unfold Overdue.tick
    cases h1 : s.tickHandle with
    | none => exact h
    | some k =>
      cases h2 : s.endTime with
      | none => exact h
      | some e => exact h
  | setCustom v => exact h
  | setPreciseInput v => exact h

theorem overdue_pendInv_run (l : List Overdue.Op) :
    ∀ s : Overdue.St, Overdue.pendInv s → Overdue.pendInv (Overdue.run s l) := by
  induction l with
  | nil => intro s h; exact h
  | cons op t ih =>
    intro s h
    exact ih (Overdue.apply s op) (overdue_pendInv_apply s op h)

theorem autoStop_clearTimer_keeps (s : AutoStop.St) :
    (AutoStop.clearTimer s).startTime = s.startTime ∧
    (AutoStop.clearTimer s).endTime = s.endTime ∧
    (AutoStop.clearTimer s).running = s.running ∧
    (AutoStop.clearTimer s).remainingMs = s.remainingMs := by
  unfold AutoStop.clearTimer
  cases s.tickHandle <;> exact ⟨rfl, rfl, rfl, rfl⟩

theorem autoStop_update_keeps (t : AutoStop.St) (e n : Int) :
    (AutoStop.update t e n).startTime = t.startTime ∧
    (AutoStop.update t e n).endTime = t.endTime := by
  have hdef : AutoStop.update t e n =
      if e - n ≤ 0 then
        { AutoStop.clearTimer { t with remainingMs := max 0 (e - n) } with
          running := false }
      else { t with remainingMs := max 0 (e - n) } := rfl
  rw [hdef]
  by_cases hd : e - n ≤ 0
  · rw [if_pos hd]
    exact ⟨(autoStop_clearTimer_keeps _).1, (autoStop_clearTimer_keeps _).2.1⟩
  · rw [if_neg hd]
    exact ⟨rfl, rfl⟩

theorem autoStop_start_times (s : AutoStop.St) (now m : Int) :
    (AutoStop.start s now m).startTime = some now ∧
    (AutoStop.start s now m).endTime = some (now + m * 60000) := by
  unfold AutoStop.start
  constructor
  · exact (autoStop_update_keeps _ _ _).1
  · exact (autoStop_update_keeps _ _ _).2

theorem autoStop_update_pos (t : AutoStop.St) (e n : Int) (hp : 0 < e - n) :
    AutoStop.update t e n = { t with remainingMs := max 0 (e - n) } := by
  have hdef : AutoStop.update t e n =
      if e - n ≤ 0 then
        { AutoStop.clearTimer { t with remainingMs := max 0 (e - n) } with
          running := false }
      else { t with remainingMs := max 0 (e - n) } := rfl
  rw [hdef, if_neg (by omega)]

theorem autoStop_start_pos (s : AutoStop.St) (now m : Int) (hm : 0 < m) :
    (AutoStop.start s now m).running = true ∧
    (AutoStop.start s now m).remainingMs = m * 60000 ∧
    (AutoStop.start s now m).tickHandle ≠ none := by
  unfold AutoStop.start
  rw [autoStop_update_pos _ _ _ (by omega)]
  refine ⟨rfl, ?_, by simp [AutoStop.setTick]⟩
  show max 0 (now + m * 60000 - now) = m * 60000
  rw [max_eq_right (by omega)]
  omega

theorem autoStop_update_expired (t : AutoStop.St) (e n : Int) (hp : e - n ≤ 0) :
    (AutoStop.update t e n).remainingMs = max 0 (e - n) ∧
    (AutoStop.update t e n).running = false ∧
    (AutoStop.update t e n).tickHandle = none := by
  have hdef : AutoStop.update t e n =
      if e - n ≤ 0 then
        { AutoStop.clearTimer { t with remainingMs := max 0 (e - n) } with
          running := false }
      else { t with remainingMs := max 0 (e - n) } := rfl
  rw [hdef, if_pos hp]
  refine ⟨?_, rfl, autoStop_clearTimer_handle _⟩
  exact (autoStop_clearTimer_keeps _).2.2.2

theorem autoStop_tick_eq (s : AutoStop.St) (now : Int) (e : Int) (k : Nat)
    (hh : s.tickHandle = some k) (he : s.endTime = some e) :
    AutoStop.tick s now = AutoStop.update s e now := by
  unfold AutoStop.tick
  rw [hh, he]

theorem overdue_tick_eq (s : Overdue.St) (now : Int) (e : Int) (k : Nat)
    (hh : s.tickHandle = some k) (he : s.endTime = some e) :
    Overdue.tick s now = Overdue.update s e now := by
  unfold Overdue.tick
  rw [hh, he]

theorem autoStop_update_rem (t : AutoStop.St) (e n : Int) :
    (AutoStop.update t e n).remainingMs = max 0 (e - n) := by
  by_cases hd : e - n ≤ 0
  · exact (autoStop_update_expired t e n hd).1
  · rw [autoStop_update_pos t e n (by omega)]

/-- C3: for every positive integer m and every current time now, the relative
deadline resolver yields an expiry exactly m * 60000 ms after now: start(m)
sets endTime = startTime + m * 60000 ms, and the pending and custom expiry
previews compute now + m * 60000 ms. -/
theorem claim_C3 (s : AutoStop.St) (now m : Int) (_hm : 0 < m) :
    (AutoStop.start s now m).startTime = some now ∧
    (AutoStop.start s now m).endTime = some (now + m * 60000) ∧
    pendingExpiresAt now (some m) none = some (now + m * 60000) ∧
    (∀ cm n, parsedCustomMinutes cm = some n → 0 < n →
      customExpiresAt now cm = some (now + n * 60000)) := by
  refine ⟨(autoStop_start_times s now m).1, (autoStop_start_times s now m).2, rfl, ?_⟩
  intro cm n hcm hn
  have hdef : customExpiresAt now cm =
      if n = 0 then none else some (now + n * 60000) := by
    unfold customExpiresAt
    rw [hcm]
  rw [hdef, if_neg (by omega)]

theorem claim_C3_witness :
    (AutoStop.start AutoStop.init 0 10).endTime = some (0 + 10 * 60000) ∧
    customExpiresAt 0 "25" = some (0 + 25 * 60000) :=
  ⟨(claim_C3 AutoStop.init 0 10 (by norm_num)).2.1,
   (claim_C3 AutoStop.init 0 10 (by norm_num)).2.2.2 "25" 25 (by decide) (by norm_num)⟩

/-- C4: on every tick while running, remaining is recomputed as
expiresAt - now; the overdue-banner variant never clamps, so remaining may go
negative while the machine stays Running, whereas the auto-stop variant clamps
remaining to zero and a tick observing expiresAt - now <= 0 moves the machine
from Running to Idle and stops the periodic callback; in particular, a
10-minute run entered at time T has expiresAt = T + 600000 ms, and a tick at
T + 600001 ms yields remaining -1 with the machine still Running in the
overdue variant, and remaining 0, Idle and no callback in the auto-stop
variant. -/
theorem claim_C4 (s : AutoStop.St) (sB : Overdue.St) (T : Int) :
    (∀ e now k, s.tickHandle = some k → s.endTime = some e →
      (AutoStop.tick s now).remainingMs = max 0 (e - now) ∧
      (e - now ≤ 0 → (AutoStop.tick s now).running = false ∧
        (AutoStop.tick s now).tickHandle = none) ∧
      (0 < e - now → (AutoStop.tick s now).running = s.running ∧
        (AutoStop.tick s now).tickHandle = s.tickHandle)) ∧
    (∀ e now k, sB.tickHandle = some k → sB.endTime = some e →
      (Overdue.tick sB now).remainingMs = e - now ∧
      (Overdue.tick sB now).running = sB.running ∧
      (Overdue.tick sB now).tickHandle = sB.tickHandle) ∧
    ((AutoStop.tick (AutoStop.start s T 10) (T + 600001)).remainingMs = 0 ∧
     (AutoStop.tick (AutoStop.start s T 10) (T + 600001)).running = false ∧
     (AutoStop.tick (AutoStop.start s T 10) (T + 600001)).tickHandle = none) ∧
    ((Overdue.confirmStart (Overdue.choosePreset sB 10) T).endTime =
        some (T + 600000) ∧
     (Overdue.tick (Overdue.confirmStart (Overdue.choosePreset sB 10) T)
        (T + 600001)).remainingMs = -1 ∧
     (Overdue.tick (Overdue.confirmStart (Overdue.choosePreset sB 10) T)
        (T + 600001)).running = true) := by
  refine ⟨?_, ?_, ?_, ?_⟩
  · intro e now k hh he
    rw [autoStop_tick_eq s now e k hh he]
    refine ⟨autoStop_update_rem s e now, ?_, ?_⟩
    · intro hexp
      exact ⟨(autoStop_update_expired s e now hexp).2.1,
        (autoStop_update_expired s e now hexp).2.2⟩
    · intro hpos
      rw [autoStop_update_pos s e now hpos]
      exact ⟨rfl, rfl⟩
  · intro e now k hh he
    rw [overdue_tick_eq sB now e k hh he]
    exact ⟨rfl, rfl, rfl⟩
  · obtain ⟨k, hk⟩ := Option.ne_none_iff_exists'.mp
      (autoStop_start_pos s T 10 (by norm_num)).2.2
    have he : (AutoStop.start s T 10).endTime = some (T + 10 * 60000) :=
      (autoStop_start_times s T 10).2
    rw [autoStop_tick_eq _ _ _ _ hk he]
    have hexp : T + 10 * 60000 - (T + 600001) ≤ 0 := by omega
    refine ⟨?_, (autoStop_update_expired _ _ _ hexp).2.1,
      (autoStop_update_expired _ _ _ hexp).2.2⟩
    rw [autoStop_update_rem]
    rw [show T + 10 * 60000 - (T + 600001) = -1 from by ring]
    decide
  · have he : (Overdue.confirmStart (Overdue.choosePreset sB 10) T).endTime =
        some (T + 10 * 60000) := rfl
    have hk : (Overdue.confirmStart (Overdue.choosePreset sB 10) T).tickHandle =
        some ((Overdue.clearTimer (Overdue.choosePreset sB 10)).nextId) := rfl
    refine ⟨by rw [he]; norm_num, ?_, ?_⟩
    · rw [overdue_tick_eq _ _ _ _ hk he]
      show T + 10 * 60000 - (T + 600001) = -1
      ring
    · rw [overdue_tick_eq _ _ _ _ hk he]
      rfl

theorem claim_C4_witness :
    (AutoStop.tick (AutoStop.start AutoStop.init 0 10) 1).remainingMs =
      max 0 (0 + 10 * 60000 - 1) ∧
    (Overdue.tick (Overdue.start Overdue.init 0 10) 1).remainingMs =
      0 + 10 * 60000 - 1 ∧
    (AutoStop.tick (AutoStop.start AutoStop.init 0 10) 600001).remainingMs = 0 ∧
    (Overdue.tick (Overdue.confirmStart (Overdue.choosePreset Overdue.init 10) 0)
      600001).remainingMs = -1 := by
  refine ⟨?_, ?_, ?_, ?_⟩
  · exact ((claim_C4 (AutoStop.start AutoStop.init 0 10) Overdue.init 0).1
      (0 + 10 * 60000) 1 0 (by decide) (by decide)).1
  · exact ((claim_C4 AutoStop.init (Overdue.start Overdue.init 0 10) 0).2.1
      (0 + 10 * 60000) 1 0 (by decide) (by decide)).1
  · have h := ((claim_C4 AutoStop.init Overdue.init 0).2.2.1).1
    rw [show (0 : Int) + 600001 = 600001 from by norm_num] at h
    exact h
  · have h := ((claim_C4 AutoStop.init Overdue.init 0).2.2.2).2.1
    rw [show (0 : Int) + 600001 = 600001 from by norm_num] at h
    exact h

/-- C5: after every finite sequence of user and timer events, at most one
active periodic tick callback exists, in both the auto-stop variant and the
overdue variant: every run-starting operation first unconditionally cancels
any previously scheduled callback and cancelling clears it, so tickers are
never leaked. -/
theorem claim_C5 (la : List AutoStop.Op) (lb : List Overdue.Op) :
    (AutoStop.run AutoStop.init la).intervals.length ≤ 1 ∧
    (Overdue.run Overdue.init lb).intervals.length ≤ 1 :=
  ⟨autoStop_intervals_le_one _ (autoStop_inv_run la AutoStop.init rfl),
   overdue_intervals_le_one _ (overdue_inv_run lb Overdue.init rfl)⟩

/-- C6: at most one pending selection variant is active at any time: after
every sequence of events of the precise-end variant, at most one of
pendingMinutes and pendingExactEnd is non-null, because each selection
operation overwrites the prior pending selection and clears the other
variant's field. -/
theorem claim_C6 (l : List Overdue.Op) :
    (Overdue.run Overdue.init l).pendingMinutes = none ∨
    (Overdue.run Overdue.init l).pendingExactEnd = none :=
  overdue_pendInv_run l Overdue.init (Or.inl rfl)

/-- C7: calling confirm when no selection is pending is a no-op - the whole
state (pending fields, running flag, start/end times, remaining, tick handle
and the set of scheduled callbacks) is unchanged - and when a selection is
pending, confirm transitions to Running with startedAt = now and expiresAt
the resolution of the selection; stated for the precise-end variant and the
preset-only variant. -/
theorem claim_C7 (s : Overdue.St) (p : Plain.St) (now : Int) :
    (s.pendingMinutes = none → s.pendingExactEnd = none →
      Overdue.confirmStart s now = s) ∧
    (∀ m, s.pendingExactEnd = none → s.pendingMinutes = some m →
      (Overdue.confirmStart s now).running = true ∧
      (Overdue.confirmStart s now).startTime = some now ∧
      (Overdue.confirmStart s now).endTime = some (now + m * 60000) ∧
      (Overdue.confirmStart s now).pendingMinutes = none ∧
      (Overdue.confirmStart s now).pendingExactEnd = none) ∧
    (∀ e, s.pendingExactEnd = some e →
      (Overdue.confirmStart s now).running = true ∧
      (Overdue.confirmStart s now).startTime = some now ∧
      (Overdue.confirmStart s now).endTime = some e ∧
      (Overdue.confirmStart s now).pendingMinutes = none ∧
      (Overdue.confirmStart s now).pendingExactEnd = none) ∧
    (p.pendingMinutes = none → Plain.confirmStart p now = p) ∧
    (∀ m, p.pendingMinutes = some m →
      (Plain.confirmStart p now).running = true ∧
      (Plain.confirmStart p now).startTime = some now ∧
      (Plain.confirmStart p now).endTime = some (now + m * 60000) ∧
      (Plain.confirmStart p now).pendingMinutes = none) := by
  refine ⟨?_, ?_, ?_, ?_, ?_⟩
  · intro hm he
    unfold Overdue.confirmStart
    rw [he, hm]
  · intro m he hm
    have hdef : Overdue.confirmStart s now =
        { Overdue.start s now m with
          pendingMinutes := none, pendingExactEnd := none } := by
      unfold Overdue.confirmStart
      rw [he, hm]
    rw [hdef]
    exact ⟨rfl, rfl, rfl, rfl, rfl⟩
  · intro e he
    have hdef : Overdue.confirmStart s now =
        { Overdue.startUntil s now e with
          pendingMinutes := none, pendingExactEnd := none } := by
      unfold Overdue.confirmStart
      rw [he]
    rw [hdef]
    exact ⟨rfl, rfl, rfl, rfl, rfl⟩
  · intro hm
    unfold Plain.confirmStart
    rw [hm]
  · intro m hm
    have hdef : Plain.confirmStart p now =
        { Plain.start p now m with pendingMinutes := none } := by
      unfold Plain.confirmStart
      rw [hm]
    rw [hdef]
    exact ⟨rfl, rfl, rfl, rfl⟩

theorem claim_C7_witness :
    Overdue.confirmStart Overdue.init 5 = Overdue.init ∧
    (Overdue.confirmStart (Overdue.choosePreset Overdue.init 10) 5).endTime =
      some (5 + 10 * 60000) ∧
    Plain.confirmStart Plain.init 5 = Plain.init :=
  ⟨(claim_C7 Overdue.init Plain.init 5).1 rfl rfl,
   ((claim_C7 (Overdue.choosePreset Overdue.init 10) Plain.init 5).2.1 10
      rfl rfl).2.2.1,
   (claim_C7 Overdue.init Plain.init 5).2.2.2.1 rfl⟩

/-- C8: cancel is idempotent on the idle state: invoking cancel when the
machine is already idle (running false, no tick handle, null start and end
times, zero remaining) leaves every state field exactly as it was. -/
theorem claim_C8 (s : AutoStop.St) (h1 : s.running = false)
    (h2 : s.tickHandle = none) (h3 : s.startTime = none) (h4 : s.endTime = none)
    (h5 : s.remainingMs = 0) : AutoStop.cancel s = s := by
  obtain ⟨cm, hov, run, st, et, rem, th, iv, ni⟩ := s
  simp_all [AutoStop.cancel, AutoStop.clearTimer]

theorem claim_C8_witness : AutoStop.cancel AutoStop.init = AutoStop.init :=
  claim_C8 AutoStop.init rfl rfl rfl rfl rfl

/-- C9: every custom-minutes input whose numeric coercion is non-finite or
non-positive yields no parsed selection, hence the start control stays
disabled (the parsed value is not truthy); in particular the inputs 0, -5 and
abc are all rejected, and no exception is possible since the computation is a
total function. -/
theorem claim_C9 (cm : String)
    (h : isFiniteNum (jsNumber cm) = false ∨
      ∃ q, jsNumber cm = JSNum.num q ∧ q ≤ 0) :
    parsedCustomMinutes cm = none ∧
    truthy (parsedCustomMinutes cm) = false ∧
    parsedCustomMinutes "0" = none ∧
    parsedCustomMinutes "-5" = none ∧
    parsedCustomMinutes "abc" = none := by
  have hnone : parsedCustomMinutes cm = none := by
    unfold parsedCustomMinutes
    rcases h with hf | ⟨q, hq, hle⟩
    · cases hj : jsNumber cm with
      | nan => rfl
      | inf b => rfl
      | num q =>
        rw [hj] at hf
        exact absurd hf (by simp [isFiniteNum])
    · rw [hq]
      simp only []
      rw [if_pos hle]
  refine ⟨hnone, by rw [hnone]; rfl, by decide, by decide, by decide⟩

theorem claim_C9_witness :
    parsedCustomMinutes "-5" = none ∧ truthy (parsedCustomMinutes "-5") = false :=
  ⟨(claim_C9 "-5" (Or.inr ⟨-5, by decide, by norm_num⟩)).1,
   (claim_C9 "-5" (Or.inr ⟨-5, by decide, by norm_num⟩)).2.1⟩

theorem jsNumber_05 : jsNumber "0.5" = JSNum.num (1 / 2) := by
  have h : jsNumber "0.5" =
      JSNum.num (((0 : Nat) : Rat) + ((5 : Nat) : Rat) / ((10 : Nat) : Rat)) := rfl
  rw [h]
  congr 1
  push_cast
  norm_num

theorem jsNumber_25 : jsNumber "2.5" = JSNum.num (5 / 2) := by
  have h : jsNumber "2.5" =
      JSNum.num (((2 : Nat) : Rat) + ((5 : Nat) : Rat) / ((10 : Nat) : Rat)) := rfl
  rw [h]
  congr 1
  push_cast
  norm_num

theorem ratFloor_half : ((1 : Rat) / 2).floor = 0 := by
  have h1 : (0 : Int) ≤ ((1 : Rat) / 2).floor := Rat.le_floor.mpr (by norm_num)
  have h2 : ¬ (1 : Int) ≤ ((1 : Rat) / 2).floor := by
    intro hc
    have := Rat.le_floor.mp hc
    norm_num at this
  omega

theorem parsedCustomMinutes_05 : parsedCustomMinutes "0.5" = some 0 := by
  unfold parsedCustomMinutes
  rw [jsNumber_05]
  simp only []
  rw [if_neg (by norm_num), ratFloor_half]

/-- C10 counterexample: the input 0.5 parses to the finite positive
non-integer 1/2, yet it is not accepted as a valid selection: the parsed
selection is Math.floor(0.5) = 0, which is falsy, so the start control stays
disabled and startCustom is a no-op rather than starting a floor(0.5)-minute
run. -/
theorem claim_C10_counterexample :
    jsNumber "0.5" = JSNum.num (1 / 2) ∧
    ((1 : Rat) / 2).den ≠ 1 ∧
    (0 : Rat) < 1 / 2 ∧
    parsedCustomMinutes "0.5" = some 0 ∧
    truthy (parsedCustomMinutes "0.5") = false ∧
    AutoStop.startCustom { AutoStop.init with customMinutes := "0.5" } 0 =
      { AutoStop.init with customMinutes := "0.5" } := by
  refine ⟨jsNumber_05, by norm_num, by norm_num, parsedCustomMinutes_05,
    by rw [parsedCustomMinutes_05]; rfl, ?_⟩
  have hdef : AutoStop.startCustom
      { AutoStop.init with customMinutes := "0.5" } 0 =
      if (0 : Int) = 0 then { AutoStop.init with customMinutes := "0.5" }
      else { AutoStop.start { AutoStop.init with customMinutes := "0.5" } 0 0 with
        customMinutes := "" } := by
    unfold AutoStop.startCustom
    rw [show ({ AutoStop.init with customMinutes := "0.5" } : AutoStop.St).customMinutes
      = "0.5" from rfl]
    rw [parsedCustomMinutes_05]
  rw [hdef, if_pos rfl]

/-- C10 (amended): a custom-minutes input that parses to a finite number q
with q >= 1 is accepted as a valid selection with value floor(q) rather than
being rejected, and the resulting run's duration is floor(q) * 60000 ms; an
input that parses to a finite q with 0 < q < 1 floors to 0 and is treated as
no valid selection (start control disabled). -/
theorem claim_C10 (cm : String) (q : Rat) (hq : jsNumber cm = JSNum.num q)
    (h1 : 1 ≤ q) :
    parsedCustomMinutes cm = some q.floor ∧
    truthy (parsedCustomMinutes cm) = true ∧
    (∀ st : AutoStop.St, st.customMinutes = cm → ∀ now : Int,
      (AutoStop.startCustom st now).startTime = some now ∧
      (AutoStop.startCustom st now).endTime = some (now + q.floor * 60000)) ∧
    (∀ q2 : Rat, 0 < q2 → q2 < 1 → ∀ cm2, jsNumber cm2 = JSNum.num q2 →
      parsedCustomMinutes cm2 = some 0 ∧
      truthy (parsedCustomMinutes cm2) = false) := by
  have hfl : 1 ≤ q.floor := Rat.le_floor.mpr (by exact_mod_cast h1)
  have hparse : parsedCustomMinutes cm = some q.floor := by
    unfold parsedCustomMinutes
    rw [hq]
    simp only []
    rw [if_neg (by push_neg; linarith)]
  refine ⟨hparse, ?_, ?_, ?_⟩
  · rw [hparse]
    show (q.floor != 0) = true
    simp only [bne_iff_ne, ne_eq]
    omega
  · intro st hst now
    have hdef : AutoStop.startCustom st now =
        if q.floor = 0 then st
        else { AutoStop.start st now q.floor with customMinutes := "" } := by
      unfold AutoStop.startCustom
      rw [hst, hparse]
    rw [hdef, if_neg (by omega)]
    exact ⟨(autoStop_start_times st now q.floor).1,
      (autoStop_start_times st now q.floor).2⟩
  · intro q2 h0 hlt cm2 hcm2
    have hfl2 : q2.floor = 0 := by
      have ha : ¬ (1 : Int) ≤ q2.floor := by
        intro hc
        have := Rat.le_floor.mp hc
        have h1q : (1 : Rat) ≤ q2 := by exact_mod_cast this
        linarith
      have hb : (0 : Int) ≤ q2.floor := Rat.le_floor.mpr (by exact_mod_cast le_of_lt h0)
      omega
    have hparse2 : parsedCustomMinutes cm2 = some 0 := by
      unfold parsedCustomMinutes
      rw [hcm2]
      simp only []
      rw [if_neg (by push_neg; linarith), hfl2]
    exact ⟨hparse2, by rw [hparse2]; rfl⟩

theorem claim_C10_witness :
    parsedCustomMinutes "2.5" = some ((5 : Rat) / 2).floor ∧
    truthy (parsedCustomMinutes "2.5") = true ∧
    parsedCustomMinutes "0.5" = some 0 :=
  ⟨(claim_C10 "2.5" ((5 : Rat) / 2) jsNumber_25 (by norm_num)).1,
   (claim_C10 "2.5" ((5 : Rat) / 2) jsNumber_25 (by norm_num)).2.1,
   ((claim_C10 "2.5" ((5 : Rat) / 2) jsNumber_25 (by norm_num)).2.2.2
      ((1 : Rat) / 2) (by norm_num) (by norm_num) "0.5" jsNumber_05).1⟩
